import Mathlib

/-!
Verification of the differential-drive robot simulator
(src/robot_simulation.py) against its natural-language specification.

The Python source is shallowly embedded below.  Pure float arithmetic is
modelled over the real numbers (exact arithmetic); the motor-speed setter,
whose inputs are plain Python numbers, is modelled over the rationals so
that it stays executable.  Python int() truncation, numpy slice semantics
and np.clip are modelled explicitly.  The body of the position-updater
loop (one integration tick) is modelled as a state-transition function
tick, and the reachable pose states as an inductive predicate.
-/

open Real

/-- Python int(x) applied to a float value: truncation toward zero, that
is floor for nonnegative arguments and ceiling for negative ones. -/
noncomputable def pyInt (x : ℝ) : ℤ := if 0 ≤ x then ⌊x⌋ else ⌈x⌉

/-- Python int(q) on an exact rational value (used for the motor-speed
setter in set_motors_speeds, source lines 90-91): truncation toward
zero. -/
def pyIntQ (q : ℚ) : ℤ := if 0 ≤ q then ⌊q⌋ else ⌈q⌉

/-- Length of the numpy basic slice a : b (step 1) on an axis of length
len: a negative endpoint counts from the end of the axis, then both
endpoints are clamped to [0, len], and an empty range yields length 0. -/
def pySliceLen (len : ℕ) (a b : ℤ) : ℕ :=
  let a' : ℤ := if a < 0 then max ((len : ℤ) + a) 0 else min a (len : ℤ)
  let b' : ℤ := if b < 0 then max ((len : ℤ) + b) 0 else min b (len : ℤ)
  (b' - a').toNat

/-- Semantics of np.clip(x, lo, hi) on scalars: lo if x is below lo, hi if
x is above hi, otherwise x; equivalently min (max x lo) hi. -/
noncomputable def pyClip (x lo hi : ℝ) : ℝ := min (max x lo) hi

/-- Source helper vec_sum_x (lines 61-62): add to an x value the
x-component of a vector of the given angle and module.  Screen
coordinates, hence the minus sign. -/
noncomputable def vec_sum_x (x angle module : ℝ) : ℝ := x - Real.sin angle * module

/-- Source helper vec_sum_y (lines 66-67): add to a y value the
y-component of a vector of the given angle and module. -/
noncomputable def vec_sum_y (y angle module : ℝ) : ℝ := y - Real.cos angle * module

/-- Configuration stored by Robot.__init__: map raster extent in pixels
(as decoded by the image codec; cv2.imread with default flags always
yields 3 channels), pixels-per-inch scale, camera geometry in
centimeters, robot track width (robot_wight in the source), maximum
linear speed, output resolution and starting pose. -/
structure RobotConfig where
  mapW : ℕ
  mapH : ℕ
  ppi : ℝ
  camera_x_dimension : ℝ
  camera_y_dimension : ℝ
  camera_x_offset : ℝ
  robot_wight : ℝ
  max_speed : ℝ
  output_resolution_x : ℕ
  output_resolution_y : ℕ
  start_pos_x : ℝ
  start_pos_y : ℝ
  start_angle : ℝ

/-- Robot.__pixel_to_cm (source lines 524-527): pixels to inches by the
ppi scale, then inches to centimeters. -/
noncomputable def pixel_to_cm (ppi : ℝ) (pixel : ℤ) : ℝ := (pixel : ℝ) / ppi * 2.54

/-- Robot.__cm_to_pixel (source lines 529-532): centimeters to inches,
scaled by ppi, truncated to an integer pixel coordinate with int(). -/
noncomputable def cm_to_pixel (ppi : ℝ) (cm : ℝ) : ℤ := pyInt (cm / 2.54 * ppi)

/-- Mutable pose state of the robot: position in centimeters and heading
in radians (fields __pos_x, __pos_y, __angle). -/
structure RobotState where
  pos_x : ℝ
  pos_y : ℝ
  angle : ℝ

/-- Motor setpoints stored in the fields __speed_right and __speed_left. -/
structure MotorState where
  speed_right : ℤ
  speed_left : ℤ
  deriving DecidableEq

/-- Robot.set_motors_speeds (source lines 82-97): the two arguments are
first truncated with int(), then the assert checks that both truncated
values lie in [-255, 255]; only after a passing check are the two fields
assigned.  A failing assert raises AssertionError. -/
def set_motors_speeds (st : MotorState) (right left : ℚ) : Except String MotorState :=
  let r := pyIntQ right
  let l := pyIntQ left
  if -255 ≤ r ∧ r ≤ 255 ∧ -255 ≤ l ∧ l ≤ 255 then
    Except.ok { speed_right := r, speed_left := l }
  else
    Except.error "the speeds of the motor MUST be in the -255 to 255 range"

/-- Stored setpoints observable after a call to set_motors_speeds: the new
values on success, the previous ones when the assert raised (the two
assignments in the source come after the assert, so an AssertionError
leaves both fields unchanged). -/
def motorStateAfterCall (st : MotorState) (right left : ℚ) : MotorState :=
  match set_motors_speeds st right left with
  | Except.ok st' => st'
  | Except.error _ => st

/-- Step-length computation of the integrator loop (source lines 284-294):
input_time is sampled once before the loop, c counts loop iterations, and
every tick uses actual_time_stamp = (time.time() - input_time) / c. -/
noncomputable def actual_time_stamp (input_time now : ℝ) (c : ℕ) : ℝ :=
  (now - input_time) / (c : ℝ)

/-- Heading recovery from the displaced track points (source lines
345-354): arctan of -delta_y / delta_x, with a pi correction added when
delta_x <= 0, and a special case of plus or minus pi/2 when delta_x is
exactly zero (sign chosen by delta_y >= 0). -/
noncomputable def recoverAngle (delta_x delta_y : ℝ) : ℝ :=
  if delta_x = 0 then
    (if 0 ≤ delta_y then π / 2 else -(π / 2))
  else
    (if delta_x ≤ 0 then Real.arctan (-delta_y / delta_x) + π
     else Real.arctan (-delta_y / delta_x))

/-- One iteration of the while-loop body normalizing the angle (source
lines 356-361): when the angle is below 0 add two pi, when it is above
two pi subtract two pi, otherwise leave it unchanged (so it is the
identity exactly when the loop guard fails). -/
noncomputable def normAngleStep (a : ℝ) : ℝ :=
  if a < 0 ∨ a > 2 * π then (if a < 0 then a + 2 * π else a - 2 * π) else a

/-- The normalization while-loop of source lines 356-361, with explicit
fuel: since one loop iteration is the identity once the guard fails,
iterating the step n times agrees with the source loop whenever the loop
needs at most n iterations.  The recovered angle always lies in
[-pi/2, 3*pi/2), for which a single adjustment suffices, so fuel 2 (used
in tick below) is an exact denotation of the loop with one spare step. -/
noncomputable def normAngleLoop (fuel : ℕ) (a : ℝ) : ℝ := normAngleStep^[fuel] a

/-- Map bound in centimeters (source line 281): the map pixel width
(image.shape[X]) converted through pixel_to_cm. -/
noncomputable def max_pos_x (cfg : RobotConfig) : ℝ := pixel_to_cm cfg.ppi (cfg.mapW : ℤ)

/-- Map bound in centimeters (source line 282): the map pixel height
(image.shape[Y]) converted through pixel_to_cm. -/
noncomputable def max_pos_y (cfg : RobotConfig) : ℝ := pixel_to_cm cfg.ppi (cfg.mapH : ℤ)

/-- One iteration of the body of Robot.__position_updater (source lines
299-367), with the measured step length dt (the actual_time_stamp value)
passed as a parameter.  The two track midpoints are computed
perpendicular to the heading, each is displaced along the current heading
by speed/255 * dt * max_speed, the new position is the midpoint of the
displaced track points, the heading is recovered from their difference
and normalized, and finally the position is clamped to the map bounds. -/
noncomputable def tick (cfg : RobotConfig) (speed_right speed_left : ℤ) (dt : ℝ)
    (s : RobotState) : RobotState :=
  let right_track_x := vec_sum_x s.pos_x (s.angle - π / 2) (cfg.robot_wight / 2)
  let right_track_y := vec_sum_y s.pos_y (s.angle - π / 2) (cfg.robot_wight / 2)
  let left_track_x := vec_sum_x s.pos_x (s.angle + π / 2) (cfg.robot_wight / 2)
  let left_track_y := vec_sum_y s.pos_y (s.angle + π / 2) (cfg.robot_wight / 2)
  let right_track_x :=
    vec_sum_x right_track_x s.angle ((speed_right : ℝ) / 255 * dt * cfg.max_speed)
  let right_track_y :=
    vec_sum_y right_track_y s.angle ((speed_right : ℝ) / 255 * dt * cfg.max_speed)
  let left_track_x :=
    vec_sum_x left_track_x s.angle ((speed_left : ℝ) / 255 * dt * cfg.max_speed)
  let left_track_y :=
    vec_sum_y left_track_y s.angle ((speed_left : ℝ) / 255 * dt * cfg.max_speed)
  let pos_x := (right_track_x + left_track_x) / 2
  let pos_y := (right_track_y + left_track_y) / 2
  let delta_x := right_track_x - left_track_x
  let delta_y := right_track_y - left_track_y
  let angle := normAngleLoop 2 (recoverAngle delta_x delta_y)
  { pos_x := pyClip pos_x 0 (max_pos_x cfg)
    pos_y := pyClip pos_y 0 (max_pos_y cfg)
    angle := angle }

/-- Pose stored by Robot.__init__ (source lines 209-213): the starting
pose is stored exactly as given, with no bounds check and no clamping. -/
def initState (cfg : RobotConfig) : RobotState :=
  { pos_x := cfg.start_pos_x, pos_y := cfg.start_pos_y, angle := cfg.start_angle }

/-- Pose states reachable through construction followed by any number of
integrator ticks with in-range setpoints and a positive measured step. -/
inductive Reachable (cfg : RobotConfig) : RobotState → Prop
  | init : Reachable cfg (initState cfg)
  | step (s : RobotState) (r l : ℤ) (dt : ℝ) :
      Reachable cfg s → -255 ≤ r → r ≤ 255 → -255 ≤ l → l ≤ 255 → 0 < dt →
      Reachable cfg (tick cfg r l dt s)

/-- Shape-level semantics of Robot.get_camera_view (source lines 100-139).
The rotation cv2.warpAffine is called with dsize equal to the map shape,
so it preserves the (mapH, mapW) extent and the 3 channels produced by
cv2.imread with default flags (the shape[C] == 4 branch of line 132 is
therefore never taken).  The crop image[y : y + height, x : x + width]
follows numpy slice semantics, and cv2.resize raises cv2.error when it is
handed an empty source image; otherwise it returns an image of exactly
(output_resolution_y, output_resolution_x, channels). -/
noncomputable def get_camera_view (cfg : RobotConfig) (s : RobotState) :
    Except String (ℕ × ℕ × ℕ) :=
  let center_x := cm_to_pixel cfg.ppi (vec_sum_x s.pos_x s.angle cfg.camera_x_offset)
  let center_y := cm_to_pixel cfg.ppi (vec_sum_y s.pos_y s.angle cfg.camera_x_offset)
  let width := cm_to_pixel cfg.ppi cfg.camera_x_dimension
  let height := cm_to_pixel cfg.ppi cfg.camera_y_dimension
  let x := pyInt ((center_x : ℝ) - (width : ℝ) / 2)
  let y := pyInt ((center_y : ℝ) - (height : ℝ) / 2)
  let cropH := pySliceLen cfg.mapH y (y + height)
  let cropW := pySliceLen cfg.mapW x (x + width)
  let channels : ℕ := 3
  let channels := if channels = 4 then 3 else channels
  if cropH = 0 ∨ cropW = 0 then
    Except.error "cv2.error: empty source image passed to cv2.resize"
  else
    Except.ok (cfg.output_resolution_y, cfg.output_resolution_x, channels)

/-- Decoded raster dimensions, as produced by the image codec. -/
structure ImageData where
  h : ℕ
  w : ℕ
  deriving DecidableEq

/-- Semantics of cv2.imread: it returns the decoded image, or None when
the file is missing, corrupt or undecodable; it never raises. -/
def cv2_imread (decoded : Option ImageData) : Option ImageData := decoded

/-- Construction-time observable state of Robot.__init__ (source lines
219 and 248-263): the cv2.imread result is stored unconditionally at line
219 with no validity check, then the top-view thread is started when
enabled (line 252) and the position-updater thread is always started
(line 263).  No exception path exists between line 219 and the thread
starts for a failed map load. -/
structure ConstructedRobot where
  map : Option ImageData
  top_view_thread_started : Bool
  updater_thread_started : Bool
  deriving DecidableEq

/-- Robot.__init__ restricted to the map load and thread lifecycle. -/
def robotInit (decoded : Option ImageData) (top_view_enable : Bool) : ConstructedRobot :=
  { map := cv2_imread decoded
    top_view_thread_started := top_view_enable
    updater_thread_started := true }

/-- First touch of the stored map by the position-updater thread (source
line 281, self.__map.shape): raises AttributeError when the stored map is
None, i.e. when cv2.imread failed at construction. -/
def position_updater_first_read (r : ConstructedRobot) : Except String (ℕ × ℕ) :=
  match r.map with
  | none => Except.error "AttributeError: NoneType object has no attribute shape"
  | some m => Except.ok (m.w, m.h)

/-- Concrete configuration used for witnesses and counterexamples: the
default camera geometry, ppi, track width and max speed of the source
constants, with a 700 x 1100 pixel map. -/
noncomputable def cfg1 : RobotConfig :=
  { mapW := 1100
    mapH := 700
    ppi := 17
    camera_x_dimension := 10
    camera_y_dimension := 10
    camera_x_offset := 5
    robot_wight := 17
    max_speed := 20
    output_resolution_x := 64
    output_resolution_y := 64
    start_pos_x := 20
    start_pos_y := 20
    start_angle := 0 }

/- ------------------------------------------------------------------ -/
/- Helper lemmas                                                       -/
/- ------------------------------------------------------------------ -/

theorem pyInt_eq_floor (x : ℝ) (h : 0 ≤ x) : pyInt x = ⌊x⌋ := by
  unfold pyInt
  exact if_pos h

theorem pyInt_eq_ceil (x : ℝ) (h : ¬ 0 ≤ x) : pyInt x = ⌈x⌉ := by
  unfold pyInt
  exact if_neg h

theorem pyIntQ_intCast (n : ℤ) : pyIntQ (n : ℚ) = n := by
  unfold pyIntQ
  split
  · exact Int.floor_intCast n
  · exact Int.ceil_intCast n

theorem normAngleStep_id (a : ℝ) (h0 : 0 ≤ a) (h2 : a ≤ 2 * π) : normAngleStep a = a := by
  unfold normAngleStep
  rw [if_neg]
  push_neg
  exact ⟨h0, h2⟩

theorem normAngleLoop_id (n : ℕ) (a : ℝ) (h0 : 0 ≤ a) (h2 : a ≤ 2 * π) :
    normAngleLoop n a = a := by
  unfold normAngleLoop
  exact Function.iterate_fixed (normAngleStep_id a h0 h2) n

theorem normAngleLoop_two_neg (a : ℝ) (h0 : -(2 * π) ≤ a) (h1 : a < 0) :
    normAngleLoop 2 a = a + 2 * π := by
  have hstep : normAngleStep a = a + 2 * π := by
    unfold normAngleStep
    rw [if_pos (Or.inl h1), if_pos h1]
  have : normAngleLoop 2 a = normAngleStep^[1] (normAngleStep a) := by
    unfold normAngleLoop
    rw [Function.iterate_succ_apply]
  rw [this, hstep, Function.iterate_one]
  exact normAngleStep_id _ (by linarith) (by linarith)

theorem pyClip_mem (x hi : ℝ) (h : 0 ≤ hi) : 0 ≤ pyClip x 0 hi ∧ pyClip x 0 hi ≤ hi := by
  unfold pyClip
  exact ⟨le_min (le_max_right x 0) h, min_le_right _ _⟩

/- ------------------------------------------------------------------ -/
/- C2: contract of set_motors_speeds on integer inputs                 -/
/- ------------------------------------------------------------------ -/

/-- C2: for every stored state and every pair of integer inputs,
set_motors_speeds raises exactly when one of the inputs lies outside
[-255, 255]; when it raises the stored setpoints are unchanged, and an
in-range pair is stored exactly as given, never clamped. -/
theorem set_motors_speeds_contract (st : MotorState) (right left : ℤ) :
    ((∃ e, set_motors_speeds st (right : ℚ) (left : ℚ) = Except.error e) ↔
      (right < -255 ∨ 255 < right ∨ left < -255 ∨ 255 < left)) ∧
    motorStateAfterCall st (right : ℚ) (left : ℚ) =
      (if right < -255 ∨ 255 < right ∨ left < -255 ∨ 255 < left then st
       else { speed_right := right, speed_left := left }) := by
  have hr : pyIntQ (right : ℚ) = right := pyIntQ_intCast right
  have hl : pyIntQ (left : ℚ) = left := pyIntQ_intCast left
  by_cases h : -255 ≤ right ∧ right ≤ 255 ∧ -255 ≤ left ∧ left ≤ 255
  · have hset : set_motors_speeds st (right : ℚ) (left : ℚ) =
        Except.ok { speed_right := right, speed_left := left } := by
      simp only [set_motors_speeds, hr, hl]
      rw [if_pos h]
    refine ⟨⟨?_, ?_⟩, ?_⟩
    · rintro ⟨e, he⟩
      rw [hset] at he
      exact absurd he (by simp)
    · intro hcon
      exact absurd hcon (by omega)
    · simp only [motorStateAfterCall, hset]
      rw [if_neg (by omega)]
  · have hset : set_motors_speeds st (right : ℚ) (left : ℚ) =
        Except.error "the speeds of the motor MUST be in the -255 to 255 range" := by
      simp only [set_motors_speeds, hr, hl]
      rw [if_neg h]
    refine ⟨⟨?_, ?_⟩, ?_⟩
    · intro _
      omega
    · intro _
      exact ⟨_, hset⟩
    · simp only [motorStateAfterCall, hset]
      rw [if_pos (by omega)]

/- ------------------------------------------------------------------ -/
/- C10: truncation happens before the range check                      -/
/- ------------------------------------------------------------------ -/

/-- C10: a non-integer input whose truncation toward zero falls inside
[-255, 255] is silently accepted and stored truncated: 255.9 and -255.9
are accepted and stored as 255 and -255, not rejected. -/
theorem set_motors_speeds_truncates (st : MotorState) :
    set_motors_speeds st (2559 / 10 : ℚ) (-(2559 / 10) : ℚ) =
      Except.ok { speed_right := 255, speed_left := -255 } := by
  have h1 : pyIntQ (2559 / 10 : ℚ) = 255 := by
    unfold pyIntQ
    rw [if_pos (by norm_num)]
    rw [Int.floor_eq_iff]
    norm_num
  have h2 : pyIntQ (-(2559 / 10) : ℚ) = -255 := by
    unfold pyIntQ
    rw [if_neg (by norm_num)]
    rw [Int.ceil_eq_iff]
    norm_num
  simp only [set_motors_speeds, h1, h2]
  rw [if_pos (by norm_num)]

/- ------------------------------------------------------------------ -/
/- C4: the measured step is a whole-run average, not the last interval -/
/- ------------------------------------------------------------------ -/

/-- C4 counterexample: with tick-time samples 0 (input_time), 1 (first
tick) and 3 (second tick), the step used on the second tick is
(3 - 0) / 2 = 1.5, not the wall-clock interval 3 - 1 = 2 elapsed since
the previous tick. -/
theorem actual_time_stamp_not_last_interval :
    actual_time_stamp 0 3 2 ≠ 3 - 1 := by
  unfold actual_time_stamp
  norm_num

/-- C4 amended: on tick c the step length dt equals the average of all
the per-tick wall-clock intervals since the loop started (the cumulative
elapsed time divided by the tick count), not the single interval since
the previous tick and not a fixed virtual step. -/
theorem actual_time_stamp_is_average (t : ℕ → ℝ) (c : ℕ) (hc : 0 < c) :
    actual_time_stamp (t 0) (t c) c =
      (∑ i ∈ Finset.range c, (t (i + 1) - t i)) / (c : ℝ) := by
  rw [Finset.sum_range_sub]
  rfl

theorem actual_time_stamp_is_average_witness :
    0 < 2 ∧
      actual_time_stamp ((fun i : ℕ => (i : ℝ) * (i : ℝ)) 0)
          ((fun i : ℕ => (i : ℝ) * (i : ℝ)) 2) 2 =
        (∑ i ∈ Finset.range 2,
          ((fun i : ℕ => (i : ℝ) * (i : ℝ)) (i + 1) - (fun i : ℕ => (i : ℝ) * (i : ℝ)) i)) /
          (2 : ℝ) :=
  ⟨by norm_num, actual_time_stamp_is_average (fun i : ℕ => (i : ℝ) * (i : ℝ)) 2 (by norm_num)⟩

/- ------------------------------------------------------------------ -/
/- C8: unit conversion round trip                                      -/
/- ------------------------------------------------------------------ -/

/-- C8: for every nonnegative centimeter value x and positive ppi, the
round trip pixel_to_cm (cm_to_pixel x) differs from x by at most one
pixel worth of centimeters, 2.54 / ppi; the loss comes only from the
integer truncation in cm_to_pixel. -/
theorem unit_round_trip (ppi x : ℝ) (hppi : 0 < ppi) (hx : 0 ≤ x) :
    |pixel_to_cm ppi (cm_to_pixel ppi x) - x| ≤ 2.54 / ppi := by
  have hinch : 0 ≤ x / 2.54 * ppi := by positivity
  have hval : pixel_to_cm ppi (cm_to_pixel ppi x) =
      (⌊x / 2.54 * ppi⌋ : ℝ) * (2.54 / ppi) := by
    simp only [pixel_to_cm, cm_to_pixel, pyInt_eq_floor _ hinch]
    ring
  have hc : (0 : ℝ) < 2.54 / ppi := by positivity
  have h1 : (⌊x / 2.54 * ppi⌋ : ℝ) * (2.54 / ppi) ≤ (x / 2.54 * ppi) * (2.54 / ppi) :=
    mul_le_mul_of_nonneg_right (Int.floor_le _) (le_of_lt hc)
  have h2 : (x / 2.54 * ppi - 1) * (2.54 / ppi) < (⌊x / 2.54 * ppi⌋ : ℝ) * (2.54 / ppi) :=
    mul_lt_mul_of_pos_right (Int.sub_one_lt_floor _) hc
  have hux : (x / 2.54 * ppi) * (2.54 / ppi) = x := by
    field_simp
  rw [hval, abs_le]
  constructor
  · nlinarith [h2, hux]
  · nlinarith [h1, hux]

theorem unit_round_trip_witness :
    (0 : ℝ) < 17 ∧ (0 : ℝ) ≤ 10 ∧
      |pixel_to_cm 17 (cm_to_pixel 17 10) - 10| ≤ 2.54 / 17 :=
  ⟨by norm_num, by norm_num, unit_round_trip 17 10 (by norm_num) (by norm_num)⟩

/- ------------------------------------------------------------------ -/
/- C9: a missing map does not abort construction                       -/
/- ------------------------------------------------------------------ -/

/-- C9: when the map file fails to decode (cv2.imread returns None),
construction nevertheless completes with None stored as the map and with
both background threads started, and the position-updater thread then
raises AttributeError at its very first access to the map shape. -/
theorem robot_init_missing_map :
    robotInit none true =
        { map := none, top_view_thread_started := true, updater_thread_started := true } ∧
      position_updater_first_read (robotInit none true) =
        Except.error "AttributeError: NoneType object has no attribute shape" :=
  ⟨rfl, rfl⟩

/- ------------------------------------------------------------------ -/
/- C7: position bounds on reachable states                             -/
/- ------------------------------------------------------------------ -/

/-- Configuration whose starting position lies far outside its small map:
a 170 x 170 pixel map at 17 ppi spans only 25.4 cm, but the start
position is (1000, 10). -/
noncomputable def cfgBad : RobotConfig :=
  { mapW := 170
    mapH := 170
    ppi := 17
    camera_x_dimension := 10
    camera_y_dimension := 10
    camera_x_offset := 5
    robot_wight := 17
    max_speed := 20
    output_resolution_x := 64
    output_resolution_y := 64
    start_pos_x := 1000
    start_pos_y := 10
    start_angle := 0 }

/-- C7 counterexample: the state produced by construction alone is
reachable, yet its x position (1000 cm) exceeds the map bound
(25.4 cm), because the constructor stores the starting position without
any clamping; the claimed invariant fails on this reachable state. -/
theorem reachable_position_out_of_bounds :
    Reachable cfgBad (initState cfgBad) ∧
      max_pos_x cfgBad < (initState cfgBad).pos_x := by
  refine ⟨Reachable.init, ?_⟩
  show max_pos_x cfgBad < 1000
  unfold max_pos_x pixel_to_cm cfgBad
  push_cast
  norm_num

/-- C7 amended: provided the configured starting position already lies
inside [0, map_width_cm] x [0, map_height_cm], every reachable state
satisfies the clamp; states reached after at least one integrator tick
satisfy it unconditionally, but the constructed state itself is only in
bounds when the start position is (the constructor does not clamp). -/
theorem reachable_position_in_bounds (cfg : RobotConfig) (s : RobotState)
    (hppi : 0 < cfg.ppi)
    (hsx : 0 ≤ cfg.start_pos_x) (hsx' : cfg.start_pos_x ≤ max_pos_x cfg)
    (hsy : 0 ≤ cfg.start_pos_y) (hsy' : cfg.start_pos_y ≤ max_pos_y cfg)
    (h : Reachable cfg s) :
    0 ≤ s.pos_x ∧ s.pos_x ≤ max_pos_x cfg ∧ 0 ≤ s.pos_y ∧ s.pos_y ≤ max_pos_y cfg := by
  have hmx : 0 ≤ max_pos_x cfg := by
    unfold max_pos_x pixel_to_cm
    have : (0 : ℝ) ≤ ((cfg.mapW : ℤ) : ℝ) / cfg.ppi := by
      apply div_nonneg _ (le_of_lt hppi)
      push_cast
      positivity
    nlinarith
  have hmy : 0 ≤ max_pos_y cfg := by
    unfold max_pos_y pixel_to_cm
    have : (0 : ℝ) ≤ ((cfg.mapH : ℤ) : ℝ) / cfg.ppi := by
      apply div_nonneg _ (le_of_lt hppi)
      push_cast
      positivity
    nlinarith
  induction h with
  | init => exact ⟨hsx, hsx', hsy, hsy'⟩
  | step s' r l dt hs hr hr' hl hl' hdt ih =>
    simp only [tick]
    exact ⟨(pyClip_mem _ _ hmx).1, (pyClip_mem _ _ hmx).2,
      (pyClip_mem _ _ hmy).1, (pyClip_mem _ _ hmy).2⟩

theorem reachable_position_in_bounds_witness :
    (0 : ℝ) < cfg1.ppi ∧
      (0 ≤ (initState cfg1).pos_x ∧ (initState cfg1).pos_x ≤ max_pos_x cfg1 ∧
        0 ≤ (initState cfg1).pos_y ∧ (initState cfg1).pos_y ≤ max_pos_y cfg1) :=
  ⟨by norm_num [cfg1],
    reachable_position_in_bounds cfg1 (initState cfg1)
      (by norm_num [cfg1])
      (by norm_num [cfg1, initState])
      (by push_cast [cfg1, initState, max_pos_x, pixel_to_cm]; norm_num)
      (by norm_num [cfg1, initState])
      (by push_cast [cfg1, initState, max_pos_y, pixel_to_cm]; norm_num)
      Reachable.init⟩

/- ------------------------------------------------------------------ -/
/- Heading recovery lemmas                                             -/
/- ------------------------------------------------------------------ -/

theorem recoverAngle_mem (dx dy : ℝ) :
    -(π / 2) ≤ recoverAngle dx dy ∧ recoverAngle dx dy < 3 * π / 2 := by
  have hpi := Real.pi_pos
  unfold recoverAngle
  split
  · split
    · constructor <;> linarith
    · constructor <;> linarith
  · have h1 := Real.arctan_lt_pi_div_two (-dy / dx)
    have h2 := Real.neg_pi_div_two_lt_arctan (-dy / dx)
    split
    · constructor <;> linarith
    · constructor <;> linarith

theorem normRecover_mem (dx dy : ℝ) :
    0 ≤ normAngleLoop 2 (recoverAngle dx dy) ∧
      normAngleLoop 2 (recoverAngle dx dy) < 2 * π := by
  have hpi := Real.pi_pos
  obtain ⟨h1, h2⟩ := recoverAngle_mem dx dy
  rcases lt_or_le (recoverAngle dx dy) 0 with h | h
  · rw [normAngleLoop_two_neg _ (by linarith) h]
    constructor <;> linarith
  · rw [normAngleLoop_id 2 _ h (by linarith)]
    constructor <;> linarith

/-- Core heading-recovery identity: when the displaced-track difference
vector is (A cos psi, -(A sin psi)) with positive magnitude A and psi
normalized to [0, 2 pi) away from the vertical (cos psi nonzero), the
source recovery plus normalization returns exactly psi. -/
theorem normRecover_rot (A ψ : ℝ) (hA : 0 < A) (h0 : 0 ≤ ψ) (h2 : ψ < 2 * π)
    (hcos : Real.cos ψ ≠ 0) :
    normAngleLoop 2 (recoverAngle (A * Real.cos ψ) (-(A * Real.sin ψ))) = ψ := by
  have hpi := Real.pi_pos
  have hdx : A * Real.cos ψ ≠ 0 := mul_ne_zero (ne_of_gt hA) hcos
  have hratio : -(-(A * Real.sin ψ)) / (A * Real.cos ψ) = Real.tan ψ := by
    rw [Real.tan_eq_sin_div_cos]
    field_simp
    ring
  rcases lt_trichotomy ψ (π / 2) with hq | hq | hq
  · have hcpos : 0 < Real.cos ψ := Real.cos_pos_of_mem_Ioo ⟨by linarith, hq⟩
    have hdxpos : 0 < A * Real.cos ψ := mul_pos hA hcpos
    rw [recoverAngle, if_neg hdx, if_neg (not_le.mpr hdxpos), hratio,
      Real.arctan_tan (by linarith) hq]
    exact normAngleLoop_id 2 ψ h0 (by linarith)
  · exfalso
    apply hcos
    rw [hq]
    exact Real.cos_pi_div_two
  · rcases lt_trichotomy ψ (3 * π / 2) with hq3 | hq3 | hq3
    · have hcneg : Real.cos ψ < 0 :=
        Real.cos_neg_of_pi_div_two_lt_of_lt hq (by linarith)
      have hdxneg : A * Real.cos ψ < 0 := mul_neg_of_pos_of_neg hA hcneg
      have htan : Real.tan ψ = Real.tan (ψ - π) := (Real.tan_periodic.sub_eq ψ).symm
      rw [recoverAngle, if_neg hdx, if_pos (le_of_lt hdxneg), hratio, htan,
        Real.arctan_tan (by linarith) (by linarith)]
      rw [show ψ - π + π = ψ by ring]
      exact normAngleLoop_id 2 ψ h0 (by linarith)
    · exfalso
      apply hcos
      rw [hq3, show (3 : ℝ) * π / 2 = π + π / 2 by ring]
      simp [Real.cos_add]
    · have hcpos : 0 < Real.cos ψ := by
        have h := Real.cos_pos_of_mem_Ioo (x := ψ - 2 * π) ⟨by linarith, by linarith⟩
        rwa [Real.cos_periodic.sub_eq] at h
      have hdxpos : 0 < A * Real.cos ψ := mul_pos hA hcpos
      have htan : Real.tan ψ = Real.tan (ψ - 2 * π) := by
        rw [show ψ - 2 * π = ψ - π - π by ring, Real.tan_periodic.sub_eq,
          Real.tan_periodic.sub_eq]
      rw [recoverAngle, if_neg hdx, if_neg (not_le.mpr hdxpos), hratio, htan,
        Real.arctan_tan (by linarith) (by linarith)]
      rw [normAngleLoop_two_neg _ (by linarith) (by linarith)]
      ring

/-- Degenerate recovery: when delta_x is exactly zero and delta_y is
nonnegative, the source returns pi/2 (already normalized). -/
theorem normRecover_vertical (dx dy : ℝ) (hdx : dx = 0) (hdy : 0 ≤ dy) :
    normAngleLoop 2 (recoverAngle dx dy) = π / 2 := by
  have hpi := Real.pi_pos
  subst hdx
  rw [recoverAngle, if_pos rfl, if_pos hdy]
  exact normAngleLoop_id 2 _ (by linarith) (by linarith)

/-- The heading component of one tick, written in closed form: the
difference of the displaced track points is always
(w cos theta + sin theta * (m_l - m_r), -(w sin theta) + cos theta * (m_l - m_r))
where w is the track width and m_r, m_l the per-track displacements. -/
theorem tick_angle_formula (cfg : RobotConfig) (sp_r sp_l : ℤ) (dt : ℝ) (s : RobotState) :
    (tick cfg sp_r sp_l dt s).angle =
      normAngleLoop 2 (recoverAngle
        (cfg.robot_wight * Real.cos s.angle +
          Real.sin s.angle *
            ((sp_l : ℝ) / 255 * dt * cfg.max_speed - (sp_r : ℝ) / 255 * dt * cfg.max_speed))
        (-(cfg.robot_wight * Real.sin s.angle) +
          Real.cos s.angle *
            ((sp_l : ℝ) / 255 * dt * cfg.max_speed - (sp_r : ℝ) / 255 * dt * cfg.max_speed))) := by
  simp only [tick, vec_sum_x, vec_sum_y]
  congr 2
  · rw [Real.sin_sub_pi_div_two, Real.sin_add_pi_div_two]
    ring
  · rw [Real.cos_sub_pi_div_two, Real.cos_add_pi_div_two]
    ring

/- ------------------------------------------------------------------ -/
/- C3: the heading after a tick lies in [0, 2 pi)                      -/
/- ------------------------------------------------------------------ -/

/-- C3: for every starting heading, in-range motor setpoints and positive
measured step dt, the heading produced by one integrator tick (arctan
recovery with quadrant correction followed by the normalization loop)
lies in the half-open interval [0, 2 pi). -/
theorem tick_heading_normalized (cfg : RobotConfig) (r l : ℤ) (dt : ℝ) (s : RobotState)
    (hr : -255 ≤ r) (hr' : r ≤ 255) (hl : -255 ≤ l) (hl' : l ≤ 255) (hdt : 0 < dt) :
    0 ≤ (tick cfg r l dt s).angle ∧ (tick cfg r l dt s).angle < 2 * π := by
  rw [tick_angle_formula]
  exact normRecover_mem _ _

theorem tick_heading_normalized_witness :
    ((-255 : ℤ) ≤ 255 ∧ (0 : ℝ) < 1) ∧
      (0 ≤ (tick cfg1 255 0 1 { pos_x := 20, pos_y := 20, angle := 0 }).angle ∧
        (tick cfg1 255 0 1 { pos_x := 20, pos_y := 20, angle := 0 }).angle < 2 * π) :=
  ⟨⟨by norm_num, by norm_num⟩,
    tick_heading_normalized cfg1 255 0 1 { pos_x := 20, pos_y := 20, angle := 0 }
      (by norm_num) (by norm_num) (by norm_num) (by norm_num) (by norm_num)⟩

/-- Degenerate recovery: when delta_x is exactly zero and delta_y is
negative, the source returns -pi/2, which the loop normalizes to
3*pi/2. -/
theorem normRecover_vertical_neg (dx dy : ℝ) (hdx : dx = 0) (hdy : ¬ 0 ≤ dy) :
    normAngleLoop 2 (recoverAngle dx dy) = 3 * π / 2 := by
  have hpi := Real.pi_pos
  subst hdx
  rw [recoverAngle, if_pos rfl, if_neg hdy]
  rw [normAngleLoop_two_neg _ (by linarith) (by linarith)]
  ring

/- ------------------------------------------------------------------ -/
/- C5: straight-line law                                               -/
/- ------------------------------------------------------------------ -/

/-- C5 counterexample: with equal setpoints (0, 0), positive track width
17, dt = 1 and the interior pose (100, 100) at heading exactly pi/2, one
tick changes the heading to 3*pi/2: the recovered delta vector is
vertical (delta_x = 0, delta_y = -17 < 0) and the special case of source
line 349 returns -pi/2, which normalizes to 3*pi/2 -- the heading flips
by pi instead of staying constant. -/
theorem straight_line_heading_flip :
    (tick cfg1 0 0 1 { pos_x := 100, pos_y := 100, angle := π / 2 }).angle = 3 * π / 2 ∧
      3 * π / 2 ≠ (π / 2 : ℝ) := by
  constructor
  · rw [tick_angle_formula]
    apply normRecover_vertical_neg
    · simp only [cfg1]
      rw [Real.cos_pi_div_two]
      push_cast
      ring
    · simp only [cfg1]
      rw [Real.sin_pi_div_two]
      push_cast
      norm_num
  · have hpi := Real.pi_pos
    intro h
    linarith

/-- C5 amended: with equal setpoints, any dt > 0 and a positive track
width, one integrator tick leaves the heading exactly unchanged provided
the heading is already normalized to [0, 2 pi) and is not one of the two
vertical headings pi/2 and 3*pi/2 (where cos heading = 0 and the swapped
special case of the recovery flips it by pi); under the same proviso the
heading therefore stays constant across many ticks. -/
theorem straight_line_tick_heading (cfg : RobotConfig) (sp : ℤ) (dt : ℝ) (s : RobotState)
    (hw : 0 < cfg.robot_wight) (hdt : 0 < dt)
    (h0 : 0 ≤ s.angle) (h2 : s.angle < 2 * π) (hcos : Real.cos s.angle ≠ 0) :
    (tick cfg sp sp dt s).angle = s.angle := by
  rw [tick_angle_formula]
  simp only [sub_self, mul_zero, add_zero]
  exact normRecover_rot cfg.robot_wight s.angle hw h0 h2 hcos

theorem straight_line_tick_heading_witness :
    ((0 : ℝ) < cfg1.robot_wight ∧ (0 : ℝ) < 1 ∧ Real.cos (0 : ℝ) ≠ 0) ∧
      (tick cfg1 100 100 1 { pos_x := 20, pos_y := 20, angle := 0 }).angle = 0 :=
  ⟨⟨by norm_num [cfg1], by norm_num, by norm_num⟩,
    straight_line_tick_heading cfg1 100 1 { pos_x := 20, pos_y := 20, angle := 0 }
      (by norm_num [cfg1]) (by norm_num) (le_refl 0)
      (by show (0 : ℝ) < 2 * π; positivity)
      (by show Real.cos (0 : ℝ) ≠ 0; norm_num)⟩

/- ------------------------------------------------------------------ -/
/- C6: spin-in-place law                                               -/
/- ------------------------------------------------------------------ -/

/-- The x position after one tick, in closed form: the robot center moves
along the current heading by the average of the two per-track
displacements, then is clamped. -/
theorem tick_pos_x_formula (cfg : RobotConfig) (sp_r sp_l : ℤ) (dt : ℝ) (s : RobotState) :
    (tick cfg sp_r sp_l dt s).pos_x =
      pyClip (s.pos_x - Real.sin s.angle *
          (((sp_r : ℝ) / 255 * dt * cfg.max_speed + (sp_l : ℝ) / 255 * dt * cfg.max_speed) / 2))
        0 (max_pos_x cfg) := by
  simp only [tick, vec_sum_x, vec_sum_y]
  congr 1
  rw [Real.sin_sub_pi_div_two, Real.sin_add_pi_div_two]
  ring

/-- The y position after one tick, in closed form. -/
theorem tick_pos_y_formula (cfg : RobotConfig) (sp_r sp_l : ℤ) (dt : ℝ) (s : RobotState) :
    (tick cfg sp_r sp_l dt s).pos_y =
      pyClip (s.pos_y - Real.cos s.angle *
          (((sp_r : ℝ) / 255 * dt * cfg.max_speed + (sp_l : ℝ) / 255 * dt * cfg.max_speed) / 2))
        0 (max_pos_y cfg) := by
  simp only [tick, vec_sum_x, vec_sum_y]
  congr 1
  rw [Real.cos_sub_pi_div_two, Real.cos_add_pi_div_two]
  ring

/-- Per-tick spin angle for opposite setpoints right = sp, left = -sp:
the counterclockwise heading advance arctan(2 m / w), where
m = sp/255 * dt * max_speed is the per-track displacement and w the
track width. -/
noncomputable def spinPhi (cfg : RobotConfig) (sp : ℤ) (dt : ℝ) : ℝ :=
  Real.arctan (2 * ((sp : ℝ) / 255 * dt * cfg.max_speed) / cfg.robot_wight)

/-- Rotation decomposition of the spin-in-place delta vector: displacing
the two opposite tracks by m and -m turns the track-difference vector of
magnitude w at heading theta into one of magnitude w * sqrt(1 + (2m/w)^2)
at heading theta + arctan(2m/w). -/
theorem rot_decomp (w m θ : ℝ) (hw : 0 < w) :
    w * Real.cos θ + Real.sin θ * (-m - m) =
        w * Real.sqrt (1 + (2 * m / w) ^ 2) * Real.cos (θ + Real.arctan (2 * m / w)) ∧
      -(w * Real.sin θ) + Real.cos θ * (-m - m) =
        -(w * Real.sqrt (1 + (2 * m / w) ^ 2) * Real.sin (θ + Real.arctan (2 * m / w))) := by
  have hS : (0 : ℝ) < Real.sqrt (1 + (2 * m / w) ^ 2) := Real.sqrt_pos.mpr (by positivity)
  have hAc : w * Real.sqrt (1 + (2 * m / w) ^ 2) * Real.cos (Real.arctan (2 * m / w)) = w := by
    rw [Real.cos_arctan]
    rw [show w * Real.sqrt (1 + (2 * m / w) ^ 2) * (1 / Real.sqrt (1 + (2 * m / w) ^ 2)) =
        w * (Real.sqrt (1 + (2 * m / w) ^ 2) / Real.sqrt (1 + (2 * m / w) ^ 2)) from by ring]
    rw [div_self (ne_of_gt hS), mul_one]
  have hAs : w * Real.sqrt (1 + (2 * m / w) ^ 2) * Real.sin (Real.arctan (2 * m / w)) =
      2 * m := by
    rw [Real.sin_arctan]
    rw [show w * Real.sqrt (1 + (2 * m / w) ^ 2) * (2 * m / w / Real.sqrt (1 + (2 * m / w) ^ 2)) =
        w * (2 * m / w) * (Real.sqrt (1 + (2 * m / w) ^ 2) / Real.sqrt (1 + (2 * m / w) ^ 2))
        from by ring]
    rw [div_self (ne_of_gt hS), mul_one, mul_comm, div_mul_cancel₀ _ (ne_of_gt hw)]
  constructor
  · rw [Real.cos_add]
    rw [show w * Real.sqrt (1 + (2 * m / w) ^ 2) *
        (Real.cos θ * Real.cos (Real.arctan (2 * m / w)) -
          Real.sin θ * Real.sin (Real.arctan (2 * m / w))) =
        Real.cos θ * (w * Real.sqrt (1 + (2 * m / w) ^ 2) * Real.cos (Real.arctan (2 * m / w))) -
          Real.sin θ * (w * Real.sqrt (1 + (2 * m / w) ^ 2) * Real.sin (Real.arctan (2 * m / w)))
        from by ring]
    rw [hAc, hAs]
    ring
  · rw [Real.sin_add]
    rw [show -(w * Real.sqrt (1 + (2 * m / w) ^ 2) *
        (Real.sin θ * Real.cos (Real.arctan (2 * m / w)) +
          Real.cos θ * Real.sin (Real.arctan (2 * m / w)))) =
        -(Real.sin θ * (w * Real.sqrt (1 + (2 * m / w) ^ 2) * Real.cos (Real.arctan (2 * m / w))) +
          Real.cos θ * (w * Real.sqrt (1 + (2 * m / w) ^ 2) * Real.sin (Real.arctan (2 * m / w))))
        from by ring]
    rw [hAc, hAs]
    ring

/-- C6 amended: with opposite setpoints right = sp = -left for any
nonzero sp, positive track width, speed and dt, an interior pose and a
heading normalized to [0, 2 pi), one tick leaves the robot center exactly
unchanged (the two opposite displacements cancel in the midpoint), and
the heading changes by exactly phi = arctan(2 m / w) taken modulo 2 pi,
where m = sp/255 * dt * max_speed is the per-track displacement; phi
carries the sign of the setpoints, counterclockwise in (0, pi/2) for
sp > 0 and clockwise in (-pi/2, 0) for sp < 0 -- provided
cos(heading + phi) is nonzero (at the measure-zero degenerate alignment
where the recovered delta vector is vertical, the swapped special case of
the recovery instead flips the result by pi, see the counterexample). -/
theorem spin_in_place_tick (cfg : RobotConfig) (sp : ℤ) (dt : ℝ) (s : RobotState)
    (hw : 0 < cfg.robot_wight) (hv : 0 < cfg.max_speed) (hsp : sp ≠ 0) (hdt : 0 < dt)
    (hx0 : 0 ≤ s.pos_x) (hx1 : s.pos_x ≤ max_pos_x cfg)
    (hy0 : 0 ≤ s.pos_y) (hy1 : s.pos_y ≤ max_pos_y cfg)
    (h0 : 0 ≤ s.angle) (h2 : s.angle < 2 * π)
    (hcos : Real.cos (s.angle + spinPhi cfg sp dt) ≠ 0) :
    (tick cfg sp (-sp) dt s).pos_x = s.pos_x ∧
      (tick cfg sp (-sp) dt s).pos_y = s.pos_y ∧
      (0 < sp → 0 < spinPhi cfg sp dt ∧ spinPhi cfg sp dt < π / 2) ∧
      (sp < 0 → -(π / 2) < spinPhi cfg sp dt ∧ spinPhi cfg sp dt < 0) ∧
      ((tick cfg sp (-sp) dt s).angle = s.angle + spinPhi cfg sp dt ∨
        (tick cfg sp (-sp) dt s).angle = s.angle + spinPhi cfg sp dt - 2 * π ∨
        (tick cfg sp (-sp) dt s).angle = s.angle + spinPhi cfg sp dt + 2 * π) := by
  have hpi := Real.pi_pos
  have hphigt : -(π / 2) < spinPhi cfg sp dt := by
    unfold spinPhi
    exact Real.neg_pi_div_two_lt_arctan _
  have hphilt : spinPhi cfg sp dt < π / 2 := Real.arctan_lt_pi_div_two _
  refine ⟨?_, ?_, ?_, ?_, ?_⟩
  · rw [tick_pos_x_formula]
    rw [show s.pos_x - Real.sin s.angle *
        (((sp : ℝ) / 255 * dt * cfg.max_speed + ((-sp : ℤ) : ℝ) / 255 * dt * cfg.max_speed) / 2) =
        s.pos_x from by push_cast; ring]
    unfold pyClip
    rw [max_eq_left hx0]
    exact min_eq_left hx1
  · rw [tick_pos_y_formula]
    rw [show s.pos_y - Real.cos s.angle *
        (((sp : ℝ) / 255 * dt * cfg.max_speed + ((-sp : ℤ) : ℝ) / 255 * dt * cfg.max_speed) / 2) =
        s.pos_y from by push_cast; ring]
    unfold pyClip
    rw [max_eq_left hy0]
    exact min_eq_left hy1
  · intro hpos
    have hspR : (0 : ℝ) < (sp : ℝ) := by exact_mod_cast hpos
    have hm : 0 < (sp : ℝ) / 255 * dt * cfg.max_speed :=
      mul_pos (mul_pos (by positivity) hdt) hv
    have ht : 0 < 2 * ((sp : ℝ) / 255 * dt * cfg.max_speed) / cfg.robot_wight :=
      div_pos (by linarith) hw
    refine ⟨?_, hphilt⟩
    unfold spinPhi
    have h := Real.arctan_strictMono ht
    rwa [Real.arctan_zero] at h
  · intro hneg
    have hspR : ((sp : ℝ)) < 0 := by exact_mod_cast hneg
    have hm : (sp : ℝ) / 255 * dt * cfg.max_speed < 0 := by
      have h1 : (sp : ℝ) / 255 < 0 := div_neg_of_neg_of_pos hspR (by norm_num)
      exact mul_neg_of_neg_of_pos (mul_neg_of_neg_of_pos h1 hdt) hv
    have ht : 2 * ((sp : ℝ) / 255 * dt * cfg.max_speed) / cfg.robot_wight < 0 :=
      div_neg_of_neg_of_pos (by linarith) hw
    refine ⟨hphigt, ?_⟩
    unfold spinPhi
    have h := Real.arctan_strictMono ht
    rwa [Real.arctan_zero] at h
  · have hS : (0 : ℝ) < Real.sqrt
        (1 + (2 * ((sp : ℝ) / 255 * dt * cfg.max_speed) / cfg.robot_wight) ^ 2) :=
      Real.sqrt_pos.mpr (by positivity)
    have hA : (0 : ℝ) < cfg.robot_wight * Real.sqrt
        (1 + (2 * ((sp : ℝ) / 255 * dt * cfg.max_speed) / cfg.robot_wight) ^ 2) :=
      mul_pos hw hS
    have hd := rot_decomp cfg.robot_wight ((sp : ℝ) / 255 * dt * cfg.max_speed) s.angle hw
    have hE1 : cfg.robot_wight * Real.cos s.angle + Real.sin s.angle *
        (((-sp : ℤ) : ℝ) / 255 * dt * cfg.max_speed - (sp : ℝ) / 255 * dt * cfg.max_speed) =
        cfg.robot_wight * Real.sqrt
            (1 + (2 * ((sp : ℝ) / 255 * dt * cfg.max_speed) / cfg.robot_wight) ^ 2) *
          Real.cos (s.angle +
            Real.arctan (2 * ((sp : ℝ) / 255 * dt * cfg.max_speed) / cfg.robot_wight)) := by
      rw [← hd.1]
      push_cast
      ring
    have hE2 : -(cfg.robot_wight * Real.sin s.angle) + Real.cos s.angle *
        (((-sp : ℤ) : ℝ) / 255 * dt * cfg.max_speed - (sp : ℝ) / 255 * dt * cfg.max_speed) =
        -(cfg.robot_wight * Real.sqrt
            (1 + (2 * ((sp : ℝ) / 255 * dt * cfg.max_speed) / cfg.robot_wight) ^ 2) *
          Real.sin (s.angle +
            Real.arctan (2 * ((sp : ℝ) / 255 * dt * cfg.max_speed) / cfg.robot_wight))) := by
      rw [← hd.2]
      push_cast
      ring
    have hc2 : ∀ x : ℝ, Real.cos (x + 2 * π) = Real.cos x := Real.cos_periodic
    have hs2 : ∀ x : ℝ, Real.sin (x + 2 * π) = Real.sin x := Real.sin_periodic
    rw [tick_angle_formula, hE1, hE2]
    rcases lt_or_le (s.angle + spinPhi cfg sp dt) 0 with hneg | hnonneg
    · right
      right
      have hpsi0 : 0 ≤ s.angle + spinPhi cfg sp dt + 2 * π := by linarith
      have hpsi2 : s.angle + spinPhi cfg sp dt + 2 * π < 2 * π := by linarith
      have hcos' : Real.cos (s.angle + spinPhi cfg sp dt + 2 * π) ≠ 0 := by
        rw [hc2]
        exact hcos
      rw [show Real.cos (s.angle +
            Real.arctan (2 * ((sp : ℝ) / 255 * dt * cfg.max_speed) / cfg.robot_wight)) =
          Real.cos (s.angle + spinPhi cfg sp dt + 2 * π) from by
        rw [hc2]
        unfold spinPhi
        rfl]
      rw [show Real.sin (s.angle +
            Real.arctan (2 * ((sp : ℝ) / 255 * dt * cfg.max_speed) / cfg.robot_wight)) =
          Real.sin (s.angle + spinPhi cfg sp dt + 2 * π) from by
        rw [hs2]
        unfold spinPhi
        rfl]
      exact normRecover_rot _ (s.angle + spinPhi cfg sp dt + 2 * π) hA hpsi0 hpsi2 hcos'
    · rcases lt_or_le (s.angle + spinPhi cfg sp dt) (2 * π) with hlt | hge
      · left
        exact normRecover_rot _ (s.angle + spinPhi cfg sp dt) hA hnonneg hlt hcos
      · right
        left
        have hpsi0 : 0 ≤ s.angle + spinPhi cfg sp dt - 2 * π := by linarith
        have hpsi2 : s.angle + spinPhi cfg sp dt - 2 * π < 2 * π := by linarith
        have hcos' : Real.cos (s.angle + spinPhi cfg sp dt - 2 * π) ≠ 0 := by
          rw [Real.cos_periodic.sub_eq]
          exact hcos
        rw [show Real.cos (s.angle +
              Real.arctan (2 * ((sp : ℝ) / 255 * dt * cfg.max_speed) / cfg.robot_wight)) =
            Real.cos (s.angle + spinPhi cfg sp dt - 2 * π) from by
          rw [Real.cos_periodic.sub_eq]
          unfold spinPhi
          rfl]
        rw [show Real.sin (s.angle +
              Real.arctan (2 * ((sp : ℝ) / 255 * dt * cfg.max_speed) / cfg.robot_wight)) =
            Real.sin (s.angle + spinPhi cfg sp dt - 2 * π) from by
          rw [Real.sin_periodic.sub_eq]
          unfold spinPhi
          rfl]
        exact normRecover_rot _ (s.angle + spinPhi cfg sp dt - 2 * π) hA hpsi0 hpsi2 hcos'

theorem spin_in_place_tick_witness :
    ((255 : ℤ) ≠ 0 ∧ (0 : ℝ) < 1) ∧
      ((tick cfg1 255 (-255) 1 { pos_x := 20, pos_y := 20, angle := 0 }).pos_x = 20 ∧
        (tick cfg1 255 (-255) 1 { pos_x := 20, pos_y := 20, angle := 0 }).pos_y = 20 ∧
        ((0 : ℤ) < 255 → 0 < spinPhi cfg1 255 1 ∧ spinPhi cfg1 255 1 < π / 2) ∧
        ((255 : ℤ) < 0 → -(π / 2) < spinPhi cfg1 255 1 ∧ spinPhi cfg1 255 1 < 0) ∧
        ((tick cfg1 255 (-255) 1 { pos_x := 20, pos_y := 20, angle := 0 }).angle =
            0 + spinPhi cfg1 255 1 ∨
          (tick cfg1 255 (-255) 1 { pos_x := 20, pos_y := 20, angle := 0 }).angle =
            0 + spinPhi cfg1 255 1 - 2 * π ∨
          (tick cfg1 255 (-255) 1 { pos_x := 20, pos_y := 20, angle := 0 }).angle =
            0 + spinPhi cfg1 255 1 + 2 * π)) :=
  ⟨⟨by norm_num, by norm_num⟩,
    spin_in_place_tick cfg1 255 1 { pos_x := 20, pos_y := 20, angle := 0 }
      (by norm_num [cfg1]) (by norm_num [cfg1]) (by norm_num) (by norm_num)
      (by norm_num)
      (by push_cast [cfg1, max_pos_x, pixel_to_cm]; norm_num)
      (by norm_num)
      (by push_cast [cfg1, max_pos_y, pixel_to_cm]; norm_num)
      (le_refl 0)
      (by show (0 : ℝ) < 2 * π; positivity)
      (by
        show Real.cos ((0 : ℝ) + spinPhi cfg1 255 1) ≠ 0
        rw [zero_add]
        unfold spinPhi
        exact ne_of_gt (Real.cos_arctan_pos _))⟩

/-- Configuration with the default track width 17 but max speed 17/2, so
that with full opposite setpoints and dt = 1 each track moves by exactly
half the track width and the recovered delta vector becomes vertical. -/
noncomputable def cfg6 : RobotConfig :=
  { mapW := 1700
    mapH := 1700
    ppi := 17
    camera_x_dimension := 10
    camera_y_dimension := 10
    camera_x_offset := 5
    robot_wight := 17
    max_speed := 17 / 2
    output_resolution_x := 64
    output_resolution_y := 64
    start_pos_x := 20
    start_pos_y := 20
    start_angle := 0 }

/-- C6 counterexample: spinning in place with right = 255 > 0 (which
should advance the heading counterclockwise by arctan(1) = pi/4, to
3*pi/2) from the interior pose (100, 100) at heading 5*pi/4, one tick
instead returns heading pi/2: the displaced delta vector is vertical and
the swapped special case of source line 347 flips the result by pi, so
the heading jumps backwards from 5*pi/4 down to pi/2 even though the
spin direction is positive. -/
theorem spin_in_place_heading_jump :
    (tick cfg6 255 (-255) 1 { pos_x := 100, pos_y := 100, angle := 5 * π / 4 }).angle = π / 2 ∧
      π / 2 < 5 * π / 4 := by
  have hpi := Real.pi_pos
  have hs5 : Real.sin (5 * π / 4) = -(Real.sqrt 2 / 2) := by
    rw [show (5 : ℝ) * π / 4 = π + π / 4 by ring, Real.sin_add, Real.sin_pi, Real.cos_pi,
      Real.sin_pi_div_four, Real.cos_pi_div_four]
    ring
  have hc5 : Real.cos (5 * π / 4) = -(Real.sqrt 2 / 2) := by
    rw [show (5 : ℝ) * π / 4 = π + π / 4 by ring, Real.cos_add, Real.sin_pi, Real.cos_pi,
      Real.sin_pi_div_four, Real.cos_pi_div_four]
    ring
  constructor
  · rw [tick_angle_formula]
    apply normRecover_vertical
    · simp only [cfg6]
      rw [hs5, hc5]
      push_cast
      ring
    · simp only [cfg6]
      rw [hs5, hc5]
      push_cast
      nlinarith [Real.sqrt_nonneg 2]
  · linarith

/- ------------------------------------------------------------------ -/
/- C1: get_camera_view crashes when the crop escapes the map           -/
/- ------------------------------------------------------------------ -/

/-- C1 (code bug): at the pose (0, 0) with heading 0 under the default
geometry (camera offset 5 cm, view 10 cm, ppi 17) on a 700 x 1100 map,
the camera center maps to pixel (0, -33) and the crop rectangle
[-66, 0) x [-33, 33) lies outside the map: the numpy slice with negative
start indices yields an empty crop, and cv2.resize raises cv2.error
instead of returning an image of the configured output resolution. -/
theorem get_camera_view_crash :
    get_camera_view cfg1 { pos_x := 0, pos_y := 0, angle := 0 } =
      Except.error "cv2.error: empty source image passed to cv2.resize" := by
  have e0 : cm_to_pixel 17 0 = 0 := by
    unfold cm_to_pixel
    rw [pyInt_eq_floor _ (by norm_num)]
    norm_num
  have e5 : cm_to_pixel 17 (-5 : ℝ) = -33 := by
    unfold cm_to_pixel
    rw [pyInt_eq_ceil _ (by norm_num), Int.ceil_eq_iff]
    norm_num
  have e10 : cm_to_pixel 17 (10 : ℝ) = 66 := by
    unfold cm_to_pixel
    rw [pyInt_eq_floor _ (by norm_num), Int.floor_eq_iff]
    norm_num
  have ex : pyInt (((0 : ℤ) : ℝ) - ((66 : ℤ) : ℝ) / 2) = -33 := by
    rw [show (((0 : ℤ) : ℝ) - ((66 : ℤ) : ℝ) / 2) = (-33 : ℝ) by push_cast; norm_num]
    rw [pyInt_eq_ceil _ (by norm_num), Int.ceil_eq_iff]
    norm_num
  have ey : pyInt ((((-33) : ℤ) : ℝ) - ((66 : ℤ) : ℝ) / 2) = -66 := by
    rw [show ((((-33) : ℤ) : ℝ) - ((66 : ℤ) : ℝ) / 2) = (-66 : ℝ) by push_cast; norm_num]
    rw [pyInt_eq_ceil _ (by norm_num), Int.ceil_eq_iff]
    norm_num
  have ecH : pySliceLen 700 (-66) (-66 + 66) = 0 := by decide
  simp only [get_camera_view, cfg1, vec_sum_x, vec_sum_y, Real.sin_zero, Real.cos_zero,
    zero_mul, one_mul, sub_zero, zero_sub]
  rw [e0, e5, e10, ex, ey, ecH]
  rw [if_pos (Or.inl rfl)]
